import Mathlib

/-!
Shallow embedding of the `playing-cards` repository
(`playing_cards/models.py` and `playing_cards/deck.py`).

Conventions of the embedding:
* Python exceptions become an explicit result type `PyResult`;
  `KeyError`/`IndexError` become the constructors of `PyError`,
  carrying the formatted message (the source wraps the offending key in
  single quotes inside the f-string; the embedding keeps the surrounding
  words and the key but drops the quote characters).
* `random.shuffle` is modelled relationally: the shuffled list is an
  arbitrary permutation of the input (the uniformity of the distribution
  is not modelled).
* A deck's card sequence is a `List Card`; mutation becomes explicit
  state passing.
-/

/-- A suit for a playing card (`models.py` class `Suit`, a `StrEnum`
with explicit values `club`, `spade`, `heart`, `diamond`, declared in
that order). -/
inductive Suit where
  | club
  | spade
  | heart
  | diamond
deriving DecidableEq

/-- The `StrEnum` string value of each `Suit` member
(`CLUB = "club"`, `SPADE = "spade"`, `HEART = "heart"`,
`DIAMOND = "diamond"`). -/
def Suit.value : Suit → String
  | .club => "club"
  | .spade => "spade"
  | .heart => "heart"
  | .diamond => "diamond"

/-- The four suits in declaration order (the iteration order of the
Python enum, used by `itertools.product(Rank, Suit)`). -/
def Suit.all : List Suit := [.club, .spade, .heart, .diamond]

/-- Modelled from the spec: the table `suits.toml` that the source loads
at import time is not among the sources; per the spec (§3) and the tests,
each suit's `id` is the single uppercase initial of its name:
`C`, `S`, `H`, `D`. -/
def Suit.id : Suit → String
  | .club => "C"
  | .spade => "S"
  | .heart => "H"
  | .diamond => "D"

/-- A rank for a playing card (`models.py` class `Rank`, an `IntEnum`
`ACE = 1` through `KING = 13`; Ace is low). -/
inductive Rank where
  | ace
  | two
  | three
  | four
  | five
  | six
  | seven
  | eight
  | nine
  | ten
  | jack
  | queen
  | king
deriving DecidableEq

/-- The thirteen ranks in declaration order (Python enum iteration
order). -/
def Rank.all : List Rank :=
  [.ace, .two, .three, .four, .five, .six, .seven, .eight, .nine, .ten,
   .jack, .queen, .king]

/-- Modelled from the spec: the table `ranks.toml` is not among the
sources; per the spec (§3) and the tests, the rank ids are
`A`, `2`..`9`, `T`, `J`, `Q`, `K`. -/
def Rank.id : Rank → String
  | .ace => "A"
  | .two => "2"
  | .three => "3"
  | .four => "4"
  | .five => "5"
  | .six => "6"
  | .seven => "7"
  | .eight => "8"
  | .nine => "9"
  | .ten => "T"
  | .jack => "J"
  | .queen => "Q"
  | .king => "K"

/-- The Python exceptions raised by the source: `KeyError` and
`IndexError`, with their message strings. -/
inductive PyError where
  | keyError (msg : String)
  | indexError (msg : String)
deriving DecidableEq

/-- Result of a Python call that may raise: either a value or a raised
exception. -/
inductive PyResult (α : Type) where
  | ok (a : α) : PyResult α
  | error (e : PyError) : PyResult α
deriving DecidableEq

/-- Sequencing of fallible Python calls (exception propagation). -/
def PyResult.bind {α β : Type} : PyResult α → (α → PyResult β) → PyResult β
  | .ok a, f => f a
  | .error e, _ => .error e

/-- Message of the `KeyError` raised by `Suit.from_id`
(`The key '{_id}' is not a valid suit`, quote characters dropped). -/
def invalidSuitMsg (s : String) : String :=
  "The key " ++ s ++ " is not a valid suit"

/-- Message of the `KeyError` raised by `Rank.from_id`
(`The key '{_id}' is not a valid rank`, quote characters dropped). -/
def invalidRankMsg (s : String) : String :=
  "The key " ++ s ++ " is not a valid rank"

/-- Modelled from the spec: the `(suit, id)` pairs in the order
`Suit.from_id` scans them (`for suit, properties in SUITS.items()`);
`suits.toml` is absent, so its entry order is taken to be the enum
declaration order. -/
def SUIT_IDS : List (Suit × String) := Suit.all.map fun su => (su, su.id)

/-- Modelled from the spec: the `(rank, id)` pairs in the order
`Rank.from_id` scans them; `ranks.toml` is absent, so its entry order is
taken to be the numeric order `1`..`13`. -/
def RANK_IDS : List (Rank × String) := Rank.all.map fun r => (r, r.id)

/-- Embeds `Suit.from_id`: scan the table for the first entry whose `id`
equals the input and return a suit; otherwise raise a `KeyError` naming
the input (`models.py` lines 59-70). -/
def Suit.fromId (s : String) : PyResult Suit :=
  match SUIT_IDS.find? (fun p => p.2 == s) with
  | some p => .ok p.1
  | none => .error (.keyError (invalidSuitMsg s))

/-- Embeds `Rank.from_id`: scan the table for the first entry whose `id`
equals the input and return a rank; otherwise raise a `KeyError` naming
the input (`models.py` lines 125-134). -/
def Rank.fromId (s : String) : PyResult Rank :=
  match RANK_IDS.find? (fun p => p.2 == s) with
  | some p => .ok p.1
  | none => .error (.keyError (invalidRankMsg s))

/-- A playing card: an immutable (rank, suit) pair (`models.py`
`@dataclasses.dataclass class Card`). -/
structure Card where
  rank : Rank
  suit : Suit
deriving DecidableEq

/-- Embeds `Card.__str__`: the 2-character identifier `rank.id + suit.id`
(`models.py` line 198-199).  The spec calls this `to_identifier()`. -/
def Card.toIdentifier (c : Card) : String := c.rank.id ++ c.suit.id

/-- Message of the `KeyError` raised by `Card.from_id` on a string that
is not exactly 2 characters (`The key, {_id}, should be 2 characters`). -/
def malformedMsg (s : String) : String :=
  "The key, " ++ s ++ ", should be 2 characters"

/-- Embeds `Card.from_id` (`models.py` lines 201-208; identical to `deck.py`
`Card.from_str`): raise a `KeyError` unless the input has exactly 2
characters, else build a card from `Rank.from_id` on the first character
and `Suit.from_id` on the second, propagating their exceptions (the rank
is parsed first).  The source tests `len(_id) != 2` and then indexes;
a string has length 2 exactly when its character list has two entries,
so the match below is an equivalent rendering. -/
def Card.fromId (s : String) : PyResult Card :=
  match s.data with
  | [a, b] =>
    match Rank.fromId (String.singleton a) with
    | .error e => .error e
    | .ok r =>
      match Suit.fromId (String.singleton b) with
      | .error e => .error e
      | .ok su => .ok { rank := r, suit := su }
  | _ => .error (.keyError (malformedMsg s))

/-- The dictionary inside `Suit.__lt__` (`models.py` lines 45-50):
`CLUB: 0, DIAMOND: 1, HEART: 2, SPADE: 3`. -/
def suitOrder : Suit → Nat
  | .club => 0
  | .diamond => 1
  | .heart => 2
  | .spade => 3

/-- Embeds `Suit.__lt__` (`models.py` lines 44-51): compares positions in the
`suitOrder` dictionary. -/
def Suit.lt (a b : Suit) : Bool := suitOrder a < suitOrder b

/-- Python `str.__lt__`: lexicographic comparison of the characters by
code point, rendered as the lexicographic order on the character
lists. -/
def pyStrLt (a b : String) : Bool := decide (a.data < b.data)

/-- Python `a <= b` on suits.  In `models.py` the `@functools.total_ordering`
decorator is applied to the method `__lt__` rather than to the class, so
it does not install `__le__` on `Suit`; Python therefore falls back to
`str.__le__` inherited through `StrEnum`, comparing the member values
`"club"`, `"spade"`, `"heart"`, `"diamond"` lexicographically. -/
def Suit.le (a b : Suit) : Bool := pyStrLt a.value b.value || a.value == b.value

/-- Python `a > b` on suits: `str.__gt__` on the member values (see `Suit.le`). -/
def Suit.gt (a b : Suit) : Bool := pyStrLt b.value a.value

/-- Python `a >= b` on suits: `str.__ge__` on the member values (see `Suit.le`). -/
def Suit.ge (a b : Suit) : Bool := pyStrLt b.value a.value || b.value == a.value

/-- The card list built by `Deck.reset` before shuffling
(`models.py` lines 264-267): `itertools.product(Rank, Suit)` iterates
ranks in the outer loop and suits in the inner loop, each in enum
declaration order. -/
def fullDeck : List Card :=
  Rank.all.flatMap fun r => Suit.all.map fun su => { rank := r, suit := su }

/-- The card list built by `Decks.reset` before shuffling
(`models.py` lines 324-329): `number_of_decks` copies of the full
52-card product, concatenated. -/
def fullDecks (n : Nat) : List Card := (List.replicate n fullDeck).flatten

namespace Deck

/-- Embeds `Deck.shuffle` (`models.py` lines 271-275): `random.shuffle`
replaces the card list by one of its permutations, chosen at random.
The embedding keeps only the guaranteed part: the result is a
permutation of the input. -/
def shuffleRel (before after : List Card) : Prop := after.Perm before

/-- Embeds `Deck.reset` (`models.py` lines 258-269): rebuild the 52-card
product, then shuffle it in place.  `resetRel cards` holds of exactly
the card lists a freshly reset (equivalently, freshly constructed)
single `Deck` can have. -/
def resetRel (after : List Card) : Prop := shuffleRel fullDeck after

/-- Embeds `list.pop()` on the card list: remove and return the last element;
raise `IndexError` on an empty list (CPython message
`pop from empty list`). -/
def pop (cards : List Card) : PyResult (Card × List Card) :=
  match cards.getLast? with
  | some c => .ok (c, cards.dropLast)
  | none => .error (.indexError "pop from empty list")

/-- Message of the `KeyError` raised by `Deck._take_card_by_id`
(`The card with key '{_id}' is not in the deck`, quote characters
dropped). -/
def cardNotInDeckMsg (key : String) : String :=
  "The card with key " ++ key ++ " is not in the deck"

/-- Embeds `Deck._take_card_by_id` (`models.py` lines 289-303): scan the card
list front-to-back; pop and return the first card whose `str` equals the
key (`self.cards.pop(i)` keeps the remaining cards in order); raise a
`KeyError` naming the key when no card matches. -/
def takeCardById (cards : List Card) (key : String) :
    PyResult (Card × List Card) :=
  match cards with
  | [] => .error (.keyError (cardNotInDeckMsg key))
  | c :: rest =>
    if c.toIdentifier = key then .ok (c, rest)
    else
      match takeCardById rest key with
      | .ok (c2, rest2) => .ok (c2, c :: rest2)
      | .error e => .error e

/-- Embeds `Deck.take_card` (`models.py` lines 277-287):
`self._take_card_by_id(_id) if _id else self.cards.pop()`.
The condition is Python truthiness of the optional string argument:
`None` and the empty string are falsy and fall through to the plain
`pop`; only a non-empty string triggers the lookup by identifier. -/
def takeCard (cards : List Card) (key : Option String) :
    PyResult (Card × List Card) :=
  match key with
  | some s => if s.isEmpty then pop cards else takeCardById cards s
  | none => pop cards

/-- Iterated `take_card()` with no key: `popIter n cards` performs `n`
consecutive top-of-deck withdrawals, returning the remaining card list,
or `none` if any of the withdrawals raised. -/
def popIter : Nat → List Card → Option (List Card)
  | 0, cards => some cards
  | n + 1, cards =>
    match takeCard cards none with
    | .ok (_, rest) => popIter n rest
    | .error _ => none

end Deck

/-- State of the `models.py` class `Decks(Deck)`: the mutable state is the inherited
card list plus `number_of_decks`, set once in `Decks.__init__`. -/
structure Decks where
  numberOfDecks : Nat
  cards : List Card
deriving DecidableEq

namespace Decks

/-- Embeds `Decks.reset` (`models.py` lines 318-331): rebuild
`number_of_decks` concatenated 52-card products, shuffle in place.  The
method assigns only `self.cards`; the resulting state keeps every other
field of the input state. -/
def resetRel (s s' : Decks) : Prop :=
  ∃ newCards, Deck.shuffleRel (fullDecks s.numberOfDecks) newCards ∧
    s' = { s with cards := newCards }

/-- Embeds `Decks.__init__(n)` (`models.py` lines 311-316): store
`number_of_decks := n`, start with an empty card list, then `reset`. -/
def mkRel (n : Nat) (s : Decks) : Prop :=
  resetRel { numberOfDecks := n, cards := [] } s

/-- Embeds `shuffle` on a `Decks` state: inherited from `Deck`, touches only
`self.cards`. -/
def shuffleRel (s s' : Decks) : Prop :=
  ∃ newCards, Deck.shuffleRel s.cards newCards ∧
    s' = { s with cards := newCards }

/-- Embeds `take_card` on a `Decks` state: inherited from `Deck`, touches only
`self.cards`. -/
def takeCard (s : Decks) (key : Option String) : PyResult (Card × Decks) :=
  match Deck.takeCard s.cards key with
  | .ok (c, rest) => .ok (c, { s with cards := rest })
  | .error e => .error e

end Decks

namespace DeckPy

/-- Embeds the `deck.py` method `Deck._take_card_by_key` (lines 328-342): the same
front-to-back scan-and-pop as `models.py`, but the function body ends
with the `for` loop, so when no card matches it falls through and
returns `None` — no exception is raised (its docstring nonetheless
documents a raise on that path). -/
def takeCardByKey (cards : List Card) (key : String) :
    Option (Card × List Card) :=
  match cards with
  | [] => none
  | c :: rest =>
    if c.toIdentifier = key then some (c, rest)
    else
      match takeCardByKey rest key with
      | some (c2, rest2) => some (c2, c :: rest2)
      | none => none

end DeckPy

/-! ## Helper lemmas -/

theorem suit_id_inj : ∀ a b : Suit, a.id = b.id → a = b := by
  intro a b
  cases a <;> cases b <;> decide

theorem rank_id_inj : ∀ a b : Rank, a.id = b.id → a = b := by
  intro a b
  cases a <;> cases b <;> decide

theorem suit_mem_all : ∀ a : Suit, a ∈ Suit.all := by
  intro a
  cases a <;> decide

theorem rank_mem_all : ∀ a : Rank, a ∈ Rank.all := by
  intro a
  cases a <;> decide

theorem card_mem_fullDeck : ∀ c : Card, c ∈ fullDeck := by
  rintro ⟨r, su⟩
  cases r <;> cases su <;> decide

theorem fullDeck_length : fullDeck.length = 52 := by decide

theorem fullDeck_ids_nodup : (fullDeck.map Card.toIdentifier).Nodup := by
  decide

theorem fromId_toIdentifier : ∀ c : Card, Card.fromId c.toIdentifier = .ok c := by
  rintro ⟨r, su⟩
  cases r <;> cases su <;> decide

theorem toIdentifier_length : ∀ c : Card, c.toIdentifier.length = 2 := by
  rintro ⟨r, su⟩
  cases r <;> cases su <;> decide

theorem suit_fromId_spec (s : String) :
    (∃ su : Suit, Suit.fromId s = .ok su ∧ su.id = s ∧
       ∀ t : Suit, t.id = s → t = su) ∨
    (Suit.fromId s = .error (.keyError (invalidSuitMsg s)) ∧
       ∀ t : Suit, t.id ≠ s) := by
  cases h : SUIT_IDS.find? (fun p => p.2 == s) with
  | some p =>
    left
    have hmem : p ∈ SUIT_IDS := List.mem_of_find?_eq_some h
    have hps : p.2 = s := by
      have := List.find?_some h
      exact eq_of_beq this
    obtain ⟨su, _, hp⟩ : ∃ su ∈ Suit.all, (su, su.id) = p := by
      simpa [SUIT_IDS] using hmem
    refine ⟨su, ?_, ?_, ?_⟩
    · unfold Suit.fromId
      rw [h, ← hp]
    · rw [← hps, ← hp]
    · intro t ht
      apply suit_id_inj
      rw [ht, ← hps, ← hp]
  | none =>
    right
    have hall := List.find?_eq_none.mp h
    have hne : ∀ t : Suit, t.id ≠ s := by
      intro t hts
      have : (t, t.id) ∈ SUIT_IDS :=
        List.mem_map_of_mem _ (suit_mem_all t)
      have := hall _ this
      simp only [beq_iff_eq] at this
      exact this hts
    refine ⟨?_, hne⟩
    unfold Suit.fromId
    rw [h]

theorem rank_fromId_spec (s : String) :
    (∃ r : Rank, Rank.fromId s = .ok r ∧ r.id = s ∧
       ∀ t : Rank, t.id = s → t = r) ∨
    (Rank.fromId s = .error (.keyError (invalidRankMsg s)) ∧
       ∀ t : Rank, t.id ≠ s) := by
  cases h : RANK_IDS.find? (fun p => p.2 == s) with
  | some p =>
    left
    have hmem : p ∈ RANK_IDS := List.mem_of_find?_eq_some h
    have hps : p.2 = s := by
      have := List.find?_some h
      exact eq_of_beq this
    obtain ⟨r, _, hp⟩ : ∃ r ∈ Rank.all, (r, r.id) = p := by
      simpa [RANK_IDS] using hmem
    refine ⟨r, ?_, ?_, ?_⟩
    · unfold Rank.fromId
      rw [h, ← hp]
    · rw [← hps, ← hp]
    · intro t ht
      apply rank_id_inj
      rw [ht, ← hps, ← hp]
  | none =>
    right
    have hall := List.find?_eq_none.mp h
    have hne : ∀ t : Rank, t.id ≠ s := by
      intro t hts
      have : (t, t.id) ∈ RANK_IDS :=
        List.mem_map_of_mem _ (rank_mem_all t)
      have := hall _ this
      simp only [beq_iff_eq] at this
      exact this hts
    refine ⟨?_, hne⟩
    unfold Rank.fromId
    rw [h]

theorem card_fromId_malformed (s : String) (h : s.length ≠ 2) :
    Card.fromId s = .error (.keyError (malformedMsg s)) := by
  have hd : s.data.length ≠ 2 := h
  unfold Card.fromId
  rcases hl : s.data with _ | ⟨a, _ | ⟨b, _ | ⟨c, tl⟩⟩⟩
  · rfl
  · rfl
  · rw [hl] at hd
    exact absurd rfl hd
  · rfl

theorem card_fromId_delegates (a b : Char) :
    Card.fromId (String.mk [a, b]) =
      (Rank.fromId (String.singleton a)).bind fun r =>
        (Suit.fromId (String.singleton b)).bind fun su =>
          .ok { rank := r, suit := su } := by
  show (match Rank.fromId (String.singleton a) with
    | PyResult.error e => (PyResult.error e : PyResult Card)
    | PyResult.ok r =>
      match Suit.fromId (String.singleton b) with
      | PyResult.error e => PyResult.error e
      | PyResult.ok su => PyResult.ok { rank := r, suit := su }) = _
  cases Rank.fromId (String.singleton a) with
  | error e => rfl
  | ok r =>
    cases Suit.fromId (String.singleton b) with
    | error e => rfl
    | ok su => rfl

/-! ## Claim theorems -/

/-- C1: identifier round-trip.  Every card's identifier
(`rank.id + suit.id`) has length 2 and parses back, via
`Card.from_id`, to the original card; conversely every 2-character
string built from a declared rank id followed by a declared suit id is
parsed by `Card.from_id` to the card whose identifier is that very
string. -/
theorem c1_identifier_round_trip :
    (∀ c : Card,
       c.toIdentifier.length = 2 ∧ Card.fromId c.toIdentifier = .ok c) ∧
    (∀ (r : Rank) (su : Suit) (s : String), s = r.id ++ su.id →
       Card.fromId s = .ok { rank := r, suit := su } ∧
       Card.toIdentifier { rank := r, suit := su } = s) := by
  constructor
  · intro c
    exact ⟨toIdentifier_length c, fromId_toIdentifier c⟩
  · rintro r su s rfl
    exact ⟨fromId_toIdentifier { rank := r, suit := su }, rfl⟩

/-- Witness for C1 at the concrete identifier `AS`. -/
theorem c1_witness :
    Card.fromId "AS" = .ok { rank := .ace, suit := .spade } ∧
    Card.toIdentifier { rank := .ace, suit := .spade } = "AS" :=
  c1_identifier_round_trip.2 .ace .spade "AS" (by decide)

/-- C5: identifier-parsing failures.  `Card.from_id` rejects any string
that is not exactly 2 characters with the malformed-identifier
`KeyError`; on a 2-character string it delegates the first character to
`Rank.from_id` and the second to `Suit.from_id` and propagates their
exceptions; and each of `Suit.from_id` / `Rank.from_id` returns the
unique variant whose id equals the input, or raises an error naming the
offending input when no declared id matches. -/
theorem c5_identifier_parsing_failures :
    (∀ s : String, s.length ≠ 2 →
       Card.fromId s = .error (.keyError (malformedMsg s))) ∧
    (∀ a b : Char,
       Card.fromId (String.mk [a, b]) =
         (Rank.fromId (String.singleton a)).bind fun r =>
           (Suit.fromId (String.singleton b)).bind fun su =>
             .ok { rank := r, suit := su }) ∧
    (∀ s : String,
       (∃ su : Suit, Suit.fromId s = .ok su ∧ su.id = s ∧
          ∀ t : Suit, t.id = s → t = su) ∨
       (Suit.fromId s = .error (.keyError (invalidSuitMsg s)) ∧
          ∀ t : Suit, t.id ≠ s)) ∧
    (∀ s : String,
       (∃ r : Rank, Rank.fromId s = .ok r ∧ r.id = s ∧
          ∀ t : Rank, t.id = s → t = r) ∨
       (Rank.fromId s = .error (.keyError (invalidRankMsg s)) ∧
          ∀ t : Rank, t.id ≠ s)) :=
  ⟨card_fromId_malformed, card_fromId_delegates,
   suit_fromId_spec, rank_fromId_spec⟩

/-- Witness for C5 at the concrete malformed identifier `A`. -/
theorem c5_witness :
    Card.fromId "A" = .error (.keyError (malformedMsg "A")) :=
  c5_identifier_parsing_failures.1 "A" (by decide)

theorem pop_of_getLast (cards : List Card) (c : Card)
    (h : cards.getLast? = some c) :
    Deck.pop cards = .ok (c, cards.dropLast) := by
  unfold Deck.pop
  rw [h]

theorem pop_decomp (cards : List Card) (c : Card)
    (h : cards.getLast? = some c) :
    cards = cards.dropLast ++ [c] := by
  have hne : cards ≠ [] := by
    intro he
    rw [he] at h
    exact Option.noConfusion h
  have hg : cards.getLast hne = c := by
    have := List.getLast?_eq_getLast cards hne
    rw [this] at h
    exact Option.some.inj h
  rw [← hg]
  exact (List.dropLast_append_getLast hne).symm

theorem takeCard_none_eq_pop (cards : List Card) :
    Deck.takeCard cards none = Deck.pop cards := rfl

theorem takeCard_empty_string_eq_pop (cards : List Card) :
    Deck.takeCard cards (some "") = Deck.pop cards := rfl

theorem pop_error_iff (cards : List Card) :
    Deck.pop cards = .error (.indexError "pop from empty list") ↔
      cards = [] := by
  constructor
  · intro h
    unfold Deck.pop at h
    cases hg : cards.getLast? with
    | some c =>
      rw [hg] at h
      exact PyResult.noConfusion h
    | none => exact List.getLast?_eq_none_iff.mp hg
  · rintro rfl
    rfl

theorem popIter_spec :
    ∀ (n : Nat) (cards : List Card), cards.length = n →
      Deck.popIter n cards = some [] ∧ Deck.popIter (n + 1) cards = none := by
  intro n
  induction n with
  | zero =>
    intro cards h
    have : cards = [] := List.length_eq_zero.mp h
    subst this
    exact ⟨rfl, rfl⟩
  | succ m ih =>
    intro cards h
    have hne : cards ≠ [] := by
      intro he
      rw [he] at h
      exact Nat.noConfusion h
    obtain ⟨c, hc⟩ : ∃ c, cards.getLast? = some c := by
      have := List.getLast?_isSome.mpr hne
      exact Option.isSome_iff_exists.mp this
    have hpop : Deck.takeCard cards none = .ok (c, cards.dropLast) :=
      pop_of_getLast cards c hc
    have hlen : cards.dropLast.length = m := by
      rw [List.length_dropLast, h]
      exact Nat.succ_sub_one m
    obtain ⟨ih1, ih2⟩ := ih cards.dropLast hlen
    constructor
    · show (match Deck.takeCard cards none with
        | PyResult.ok (_, rest) => Deck.popIter m rest
        | PyResult.error _ => none) = some []
      rw [hpop]
      exact ih1
    · show (match Deck.takeCard cards none with
        | PyResult.ok (_, rest) => Deck.popIter (m + 1) rest
        | PyResult.error _ => none) = none
      rw [hpop]
      exact ih2

/-- C3: top-of-deck withdrawal.  On a deck of size `k > 0`, `take_card`
with no key removes and returns the last card in sequence order,
leaving `k - 1` cards; it raises the empty-deck `IndexError` exactly
when the deck is empty; and on any 52-card deck 52 consecutive
withdrawals empty the deck while a 53rd attempt fails. -/
theorem c3_withdraw_top :
    (∀ (cards : List Card) (c : Card), cards.getLast? = some c →
       Deck.takeCard cards none = .ok (c, cards.dropLast) ∧
       cards.dropLast.length = cards.length - 1) ∧
    (∀ cards : List Card,
       Deck.takeCard cards none =
           .error (.indexError "pop from empty list") ↔
         cards.length = 0) ∧
    (∀ cards : List Card, cards.length = 52 →
       Deck.popIter 52 cards = some [] ∧ Deck.popIter 53 cards = none) := by
  refine ⟨?_, ?_, ?_⟩
  · intro cards c h
    exact ⟨pop_of_getLast cards c h, List.length_dropLast cards⟩
  · intro cards
    rw [takeCard_none_eq_pop, pop_error_iff, List.length_eq_zero]
  · intro cards h
    exact popIter_spec 52 cards h

/-- Witness for C3: a fresh, unshuffled 52-card deck is emptied by 52
withdrawals and a 53rd fails. -/
theorem c3_witness :
    Deck.popIter 52 fullDeck = some [] ∧ Deck.popIter 53 fullDeck = none :=
  c3_withdraw_top.2.2 fullDeck (by decide)

theorem takeCardById_nil (key : String) :
    Deck.takeCardById [] key =
      .error (.keyError (Deck.cardNotInDeckMsg key)) := rfl

theorem takeCardById_cons (c0 : Card) (rest0 : List Card) (key : String) :
    Deck.takeCardById (c0 :: rest0) key =
      if c0.toIdentifier = key then .ok (c0, rest0)
      else
        match Deck.takeCardById rest0 key with
        | PyResult.ok (c2, rest2) => PyResult.ok (c2, c0 :: rest2)
        | PyResult.error e => PyResult.error e := rfl

theorem takeCardById_ok_decomp :
    ∀ (cards rest : List Card) (key : String) (c : Card),
      Deck.takeCardById cards key = .ok (c, rest) →
      ∃ l₁ l₂, cards = l₁ ++ c :: l₂ ∧ rest = l₁ ++ l₂ ∧
        c.toIdentifier = key ∧ ∀ x ∈ l₁, x.toIdentifier ≠ key := by
  intro cards
  induction cards with
  | nil =>
    intro rest key c h
    exact PyResult.noConfusion h
  | cons c0 rest0 ih =>
    intro rest key c h
    rw [takeCardById_cons] at h
    by_cases hid : c0.toIdentifier = key
    · rw [if_pos hid] at h
      obtain ⟨h1, h2⟩ := Prod.mk.injEq .. ▸ (PyResult.ok.inj h)
      refine ⟨[], rest0, ?_, ?_, ?_, ?_⟩
      · rw [h1]
        rfl
      · rw [h2]
        rfl
      · rw [← h1]
        exact hid
      · intro x hx
        exact absurd hx (List.not_mem_nil x)
    · rw [if_neg hid] at h
      cases hr : Deck.takeCardById rest0 key with
      | error e =>
        rw [hr] at h
        exact PyResult.noConfusion h
      | ok p =>
        obtain ⟨c2, rest2⟩ := p
        rw [hr] at h
        obtain ⟨h1, h2⟩ := Prod.mk.injEq .. ▸ (PyResult.ok.inj h)
        obtain ⟨l₁, l₂, hc, hrr, hcid, hfirst⟩ := ih rest2 key c2 hr
        subst h1
        refine ⟨c0 :: l₁, l₂, ?_, ?_, hcid, ?_⟩
        · rw [hc]
          rfl
        · rw [← h2, hrr]
          rfl
        · intro x hx
          rcases List.mem_cons.mp hx with hx0 | hx1
          · rw [hx0]
            exact hid
          · exact hfirst x hx1

/-- C10: frame property of the two withdrawal operations.  A top-of-deck
withdrawal leaves exactly the original sequence minus its last element;
a withdrawal by identifier splits the sequence around the returned card
and concatenates the two parts, so the remaining cards keep their
relative order. -/
theorem c10_withdraw_preserves_order :
    (∀ (cards rest : List Card) (c : Card),
       Deck.takeCard cards none = .ok (c, rest) → cards = rest ++ [c]) ∧
    (∀ (cards rest : List Card) (key : String) (c : Card),
       Deck.takeCardById cards key = .ok (c, rest) →
       ∃ l₁ l₂, cards = l₁ ++ c :: l₂ ∧ rest = l₁ ++ l₂) := by
  constructor
  · intro cards rest c h
    rw [takeCard_none_eq_pop] at h
    unfold Deck.pop at h
    cases hg : cards.getLast? with
    | none =>
      rw [hg] at h
      exact PyResult.noConfusion h
    | some c0 =>
      rw [hg] at h
      obtain ⟨h1, h2⟩ := Prod.mk.injEq .. ▸ (PyResult.ok.inj h)
      rw [← h2, ← h1]
      exact pop_decomp cards c0 hg
  · intro cards rest key c h
    obtain ⟨l₁, l₂, hc, hr, _, _⟩ := takeCardById_ok_decomp cards rest key c h
    exact ⟨l₁, l₂, hc, hr⟩

/-- Witness for C10: withdrawing the top of a one-card deck leaves the
empty sequence and the card was the last element. -/
theorem c10_witness :
    ([{ rank := .ace, suit := .club }] : List Card) =
      [] ++ [{ rank := .ace, suit := .club }] :=
  c10_withdraw_preserves_order.1 [{ rank := .ace, suit := .club }] []
    { rank := .ace, suit := .club } (by decide)

/-- C9: `take_card` called with the empty string.  The source guards
with Python truthiness (`if _id`), and the empty string is falsy, so the
call is a plain top-of-deck pop: it never scans for an identifier, never
raises the not-found `KeyError`, returns the last card when the deck is
nonempty and raises the empty-deck `IndexError` when it is empty. -/
theorem c9_empty_string_take_card :
    ∀ cards : List Card,
      Deck.takeCard cards (some "") = Deck.pop cards ∧
      Deck.takeCard cards (some "") = Deck.takeCard cards none ∧
      (∀ msg : String,
        Deck.takeCard cards (some "") ≠ .error (.keyError msg)) ∧
      (∀ c : Card, cards.getLast? = some c →
        Deck.takeCard cards (some "") = .ok (c, cards.dropLast)) ∧
      (cards = [] →
        Deck.takeCard cards (some "") =
          .error (.indexError "pop from empty list")) := by
  intro cards
  refine ⟨rfl, rfl, ?_, ?_, ?_⟩
  · intro msg h
    rw [takeCard_empty_string_eq_pop] at h
    unfold Deck.pop at h
    cases hg : cards.getLast? with
    | some c =>
      rw [hg] at h
      exact PyResult.noConfusion h
    | none =>
      rw [hg] at h
      have := PyResult.error.inj h
      exact PyError.noConfusion this
  · intro c hc
    rw [takeCard_empty_string_eq_pop]
    exact pop_of_getLast cards c hc
  · rintro rfl
    rfl

/-- Witness for C9: on a one-card deck, `take_card` with the empty
string pops the last card instead of failing a lookup. -/
theorem c9_witness :
    Deck.takeCard [{ rank := .ace, suit := .club }] (some "") =
      .ok ({ rank := .ace, suit := .club }, []) :=
  (c9_empty_string_take_card [{ rank := .ace, suit := .club }]).2.2.2.1
    { rank := .ace, suit := .club } (by decide)

/-- C6: shuffling never changes the size nor the multiset of cards: the
result is a permutation of the input, so the identifier multiset and
every card count are unchanged. -/
theorem c6_shuffle_preserves_multiset :
    ∀ before after : List Card, Deck.shuffleRel before after →
      after.length = before.length ∧
      (after.map Card.toIdentifier).Perm (before.map Card.toIdentifier) ∧
      ∀ c : Card, after.count c = before.count c := by
  intro before after h
  exact ⟨h.length_eq, h.map Card.toIdentifier, fun c => h.count_eq c⟩

/-- Witness for C6 at the identity shuffle of a one-card deck. -/
theorem c6_witness :
    (([{ rank := .ace, suit := .club }] : List Card).map
        Card.toIdentifier).Perm
      (([{ rank := .ace, suit := .club }] : List Card).map
        Card.toIdentifier) :=
  (c6_shuffle_preserves_multiset [{ rank := .ace, suit := .club }]
    [{ rank := .ace, suit := .club }] (List.Perm.refl _)).2.1

theorem fullDecks_length (n : Nat) : (fullDecks n).length = 52 * n := by
  unfold fullDecks
  rw [List.length_flatten, List.map_replicate, fullDeck_length,
    List.sum_replicate, smul_eq_mul, Nat.mul_comm]

theorem count_toId_fullDeck (c : Card) :
    (fullDeck.map Card.toIdentifier).count c.toIdentifier = 1 :=
  List.count_eq_one_of_mem fullDeck_ids_nodup
    (List.mem_map_of_mem Card.toIdentifier (card_mem_fullDeck c))

theorem count_toId_fullDecks (n : Nat) (c : Card) :
    ((fullDecks n).map Card.toIdentifier).count c.toIdentifier = n := by
  unfold fullDecks
  rw [List.map_flatten, List.map_replicate, List.count_flatten,
    List.map_replicate, count_toId_fullDeck, List.sum_replicate,
    smul_eq_mul, Nat.mul_one]

/-- C4: composition of a fresh deck.  Any freshly reset single deck has
exactly 52 cards with pairwise distinct identifiers; any freshly
constructed `Decks(n)` has exactly `52 * n` cards in which each of the
52 identifiers occurs exactly `n` times; in particular twice for
`n = 2`. -/
theorem c4_fresh_deck_composition :
    (∀ cards : List Card, Deck.resetRel cards →
       cards.length = 52 ∧ (cards.map Card.toIdentifier).Nodup) ∧
    (∀ (n : Nat) (s : Decks), Decks.mkRel n s →
       s.cards.length = 52 * n ∧
       ∀ c : Card,
         (s.cards.map Card.toIdentifier).count c.toIdentifier = n) ∧
    (∀ s : Decks, Decks.mkRel 2 s →
       ∀ c : Card,
         (s.cards.map Card.toIdentifier).count c.toIdentifier = 2) := by
  have hdecks : ∀ (n : Nat) (s : Decks), Decks.mkRel n s →
      s.cards.length = 52 * n ∧
      ∀ c : Card,
        (s.cards.map Card.toIdentifier).count c.toIdentifier = n := by
    intro n s hs
    obtain ⟨newCards, hperm, rfl⟩ := hs
    have hp : newCards.Perm (fullDecks n) := hperm
    constructor
    · rw [hp.length_eq]
      exact fullDecks_length n
    · intro c
      rw [(hp.map Card.toIdentifier).count_eq]
      exact count_toId_fullDecks n c
  refine ⟨?_, hdecks, fun s hs => (hdecks 2 s hs).2⟩
  intro cards h
  have hp : cards.Perm fullDeck := h
  constructor
  · rw [hp.length_eq]
    exact fullDeck_length
  · exact ((hp.map Card.toIdentifier).nodup_iff).mpr fullDeck_ids_nodup

/-- Witness for C4 at the unshuffled fresh single deck. -/
theorem c4_witness :
    fullDeck.length = 52 ∧ (fullDeck.map Card.toIdentifier).Nodup :=
  c4_fresh_deck_composition.1 fullDeck (List.Perm.refl _)

/-- C7: reset restores full capacity and `number_of_decks` is never
modified.  From any state, `Decks.reset` yields `52 * number_of_decks`
cards and keeps `number_of_decks`; a single `Deck.reset` yields 52
cards; shuffling and withdrawing also keep `number_of_decks`; and a
freshly constructed `Decks(n)` records `n` and holds `52 * n` cards. -/
theorem c7_reset_capacity_and_decks_count :
    (∀ s s' : Decks, Decks.resetRel s s' →
       s'.numberOfDecks = s.numberOfDecks ∧
       s'.cards.length = 52 * s.numberOfDecks) ∧
    (∀ cards : List Card, Deck.resetRel cards → cards.length = 52) ∧
    (∀ s s' : Decks, Decks.shuffleRel s s' →
       s'.numberOfDecks = s.numberOfDecks) ∧
    (∀ (s : Decks) (key : Option String) (c : Card) (s' : Decks),
       Decks.takeCard s key = .ok (c, s') →
       s'.numberOfDecks = s.numberOfDecks) ∧
    (∀ (n : Nat) (s : Decks), Decks.mkRel n s →
       s.numberOfDecks = n ∧ s.cards.length = 52 * n) := by
  refine ⟨?_, ?_, ?_, ?_, ?_⟩
  · intro s s' h
    obtain ⟨newCards, hperm, rfl⟩ := h
    have hp : newCards.Perm (fullDecks s.numberOfDecks) := hperm
    exact ⟨rfl, by rw [hp.length_eq]; exact fullDecks_length _⟩
  · intro cards h
    have hp : cards.Perm fullDeck := h
    rw [hp.length_eq]
    exact fullDeck_length
  · intro s s' h
    obtain ⟨newCards, _, rfl⟩ := h
    rfl
  · intro s key c s' h
    unfold Decks.takeCard at h
    cases ht : Deck.takeCard s.cards key with
    | error e =>
      rw [ht] at h
      exact PyResult.noConfusion h
    | ok p =>
      obtain ⟨c0, rest⟩ := p
      rw [ht] at h
      obtain ⟨_, h2⟩ := Prod.mk.injEq .. ▸ (PyResult.ok.inj h)
      rw [← h2]
  · intro n s h
    obtain ⟨newCards, hperm, rfl⟩ := h
    have hp : newCards.Perm (fullDecks n) := hperm
    exact ⟨rfl, by rw [hp.length_eq]; exact fullDecks_length n⟩

/-- Witness for C7: a concrete fresh `Decks(2)` state. -/
theorem c7_witness :
    (Decks.mk 2 (fullDecks 2)).numberOfDecks = 2 ∧
    (Decks.mk 2 (fullDecks 2)).cards.length = 52 * 2 :=
  c7_reset_capacity_and_decks_count.2.2.2.2 2 (Decks.mk 2 (fullDecks 2))
    ⟨fullDecks 2, List.Perm.refl _, rfl⟩

/-- C8: the suit comparison operators realize the fixed total order
CLUB < DIAMOND < HEART < SPADE.  `<` is the dictionary-based `__lt__`;
`<=`, `>` and `>=` are the `str` fallbacks on the member values (see
`Suit.le`), and all four agree with the same strict chain, which is
total, asymmetric and transitive. -/
theorem c8_suit_total_order :
    (Suit.lt .club .diamond = true ∧ Suit.lt .diamond .heart = true ∧
       Suit.lt .heart .spade = true) ∧
    (∀ a b : Suit, Suit.le a b = true ↔ (Suit.lt a b = true ∨ a = b)) ∧
    (∀ a b : Suit, Suit.gt a b = true ↔ Suit.lt b a = true) ∧
    (∀ a b : Suit, Suit.ge a b = true ↔ (Suit.lt b a = true ∨ a = b)) ∧
    (∀ a b : Suit, Suit.lt a b = true ∨ a = b ∨ Suit.lt b a = true) ∧
    (∀ a b : Suit, Suit.lt a b = true → Suit.lt b a = false) ∧
    (∀ a b c : Suit,
       Suit.lt a b = true → Suit.lt b c = true → Suit.lt a c = true) := by
  refine ⟨by decide, ?_, ?_, ?_, ?_, ?_, ?_⟩
  · intro a b
    cases a <;> cases b <;> decide
  · intro a b
    cases a <;> cases b <;> decide
  · intro a b
    cases a <;> cases b <;> decide
  · intro a b
    cases a <;> cases b <;> decide
  · intro a b
    cases a <;> cases b <;> decide
  · intro a b c
    cases a <;> cases b <;> cases c <;> decide

/-- Witness for C8: transitivity instantiated along the chain gives
CLUB < HEART. -/
theorem c8_witness : Suit.lt .club .heart = true :=
  c8_suit_total_order.2.2.2.2.2.2 .club .diamond .heart (by decide)
    (by decide)

theorem takeCardById_error_of_no_match :
    ∀ (cards : List Card) (key : String),
      (∀ x ∈ cards, x.toIdentifier ≠ key) →
      Deck.takeCardById cards key =
        .error (.keyError (Deck.cardNotInDeckMsg key)) := by
  intro cards
  induction cards with
  | nil =>
    intro key _
    rfl
  | cons c0 rest0 ih =>
    intro key h
    rw [takeCardById_cons,
      if_neg (h c0 (List.mem_cons_self c0 rest0)),
      ih key fun x hx => h x (List.mem_cons_of_mem c0 hx)]

theorem takeCardById_ok_of_mem :
    ∀ (cards : List Card) (key : String),
      key ∈ cards.map Card.toIdentifier →
      ∃ c rest, Deck.takeCardById cards key = .ok (c, rest) := by
  intro cards
  induction cards with
  | nil =>
    intro key h
    exact absurd h (List.not_mem_nil key)
  | cons c0 rest0 ih =>
    intro key h
    by_cases hid : c0.toIdentifier = key
    · exact ⟨c0, rest0, by rw [takeCardById_cons, if_pos hid]⟩
    · have hmem : key ∈ rest0.map Card.toIdentifier := by
        rcases List.mem_cons.mp h with h0 | h1
        · exact absurd h0.symm hid
        · exact h1
      obtain ⟨c, rest, hr⟩ := ih key hmem
      exact ⟨c, c0 :: rest, by rw [takeCardById_cons, if_neg hid, hr]⟩

theorem takeCardById_count_and_length (cards rest : List Card)
    (key : String) (c : Card)
    (h : Deck.takeCardById cards key = .ok (c, rest)) :
    (rest.map Card.toIdentifier).count key + 1 =
        (cards.map Card.toIdentifier).count key ∧
      rest.length + 1 = cards.length := by
  obtain ⟨l₁, l₂, hc, hr, hcid, _⟩ :=
    takeCardById_ok_decomp cards rest key c h
  subst hc
  subst hr
  constructor
  · rw [List.map_append, List.map_append, List.map_cons, hcid,
      List.count_append, List.count_append, List.count_cons_self]
    omega
  · rw [List.length_append, List.length_append, List.length_cons]
    omega

theorem takeCard_as_key (cards : List Card) :
    Deck.takeCard cards (some "AS") = Deck.takeCardById cards "AS" := rfl

theorem decksTakeCard_ok (s : Decks) (key : Option String) (c : Card)
    (rest : List Card) (h : Deck.takeCard s.cards key = .ok (c, rest)) :
    Decks.takeCard s key = .ok (c, { s with cards := rest }) := by
  unfold Decks.takeCard
  rw [h]

theorem decksTakeCard_error (s : Decks) (key : Option String)
    (e : PyError) (h : Deck.takeCard s.cards key = .error e) :
    Decks.takeCard s key = .error e := by
  unfold Decks.takeCard
  rw [h]

theorem no_match_of_count_zero (cards : List Card) (key : String)
    (h : (cards.map Card.toIdentifier).count key = 0) :
    ∀ x ∈ cards, x.toIdentifier ≠ key := by
  intro x hx hxid
  have : key ∈ cards.map Card.toIdentifier :=
    List.mem_map.mpr ⟨x, hx, hxid⟩
  exact absurd this (List.count_eq_zero.mp h)

/-- Consecutive identifier withdrawals of `AS` on a fresh `Decks(2)`
built by `models.py`: the first two succeed, each returning a card whose
identifier is `AS` and shrinking the pool by one, and the third raises
the `KeyError` naming the key.  This is the behaviour the claim
describes, realized by `models.Deck._take_card_by_id`; the `deck.py`
variant of the same loop silently returns `None` instead. -/
theorem models_decks2_as_scenario :
    ∀ s : Decks, Decks.mkRel 2 s →
      ∃ (c1 : Card) (rest1 : List Card) (c2 : Card) (rest2 : List Card),
        Decks.takeCard s (some "AS") =
            .ok (c1, { s with cards := rest1 }) ∧
        c1.toIdentifier = "AS" ∧ rest1.length = 103 ∧
        Decks.takeCard { s with cards := rest1 } (some "AS") =
            .ok (c2, { s with cards := rest2 }) ∧
        c2.toIdentifier = "AS" ∧ rest2.length = 102 ∧
        Decks.takeCard { s with cards := rest2 } (some "AS") =
            .error (.keyError (Deck.cardNotInDeckMsg "AS")) := by
  intro s hs
  obtain ⟨newCards, hperm, rfl⟩ := hs
  have hp : newCards.Perm (fullDecks 2) := hperm
  have hcnt : (newCards.map Card.toIdentifier).count "AS" = 2 := by
    rw [(hp.map Card.toIdentifier).count_eq]
    exact count_toId_fullDecks 2 { rank := .ace, suit := .spade }
  have hlen : newCards.length = 104 := by
    rw [hp.length_eq, fullDecks_length]
  obtain ⟨c1, rest1, h1⟩ :=
    takeCardById_ok_of_mem newCards "AS"
      (List.count_pos_iff.mp (by rw [hcnt]; exact Nat.zero_lt_succ 1))
  obtain ⟨_, _, _, _, hc1, _⟩ :=
    takeCardById_ok_decomp newCards rest1 "AS" c1 h1
  obtain ⟨hcnt1, hlen1⟩ :=
    takeCardById_count_and_length newCards rest1 "AS" c1 h1
  rw [hcnt] at hcnt1
  rw [hlen] at hlen1
  obtain ⟨c2, rest2, h2⟩ :=
    takeCardById_ok_of_mem rest1 "AS"
      (List.count_pos_iff.mp (by omega))
  obtain ⟨_, _, _, _, hc2, _⟩ :=
    takeCardById_ok_decomp rest1 rest2 "AS" c2 h2
  obtain ⟨hcnt2, hlen2⟩ :=
    takeCardById_count_and_length rest1 rest2 "AS" c2 h2
  have hcnt2z : (rest2.map Card.toIdentifier).count "AS" = 0 := by omega
  have h3 :=
    takeCardById_error_of_no_match rest2 "AS"
      (no_match_of_count_zero rest2 "AS" hcnt2z)
  refine ⟨c1, rest1, c2, rest2, ?_, hc1, by omega, ?_, hc2, by omega, ?_⟩
  · exact decksTakeCard_ok _ _ _ _ (by rw [takeCard_as_key]; exact h1)
  · exact decksTakeCard_ok _ _ _ _ (by rw [takeCard_as_key]; exact h2)
  · exact decksTakeCard_error _ _ _ (by rw [takeCard_as_key]; exact h3)

/-- C2, divergence in `deck.py`.  On a fresh single deck generated by
`deck.py`, taking `AS` by key once succeeds; repeating the call on the
remainder, where no ace of spades is left, makes
`Deck._take_card_by_key` fall off its loop and return `None` — it
raises nothing, although the claim (and the docstring of the method
itself) promise an exception naming the key.  The `models.py` version
of the same scan, run at the very same state, does raise the `KeyError`
the claim describes. -/
theorem c2_take_card_by_key_miss :
    (DeckPy.takeCardByKey fullDeck "AS").isSome = true ∧
    (DeckPy.takeCardByKey fullDeck "AS").bind
        (fun p => DeckPy.takeCardByKey p.2 "AS") = none ∧
    (DeckPy.takeCardByKey fullDeck "AS").map
        (fun p => Deck.takeCardById p.2 "AS") =
      some (.error (.keyError (Deck.cardNotInDeckMsg "AS"))) := by
  decide
